import Mathlib

/-!
Verification of the MusicCat song library (TPPBR MusicCat) against its design
specification.

The development shallowly embeds the two source files:
* `musiccat/__init__.py` — catalog ingestion (`_import_metadata`,
  `refresh_song_list`) and multi-keyword ranked search (`MusicCat.search`);
* `musiccat.py` (legacy v2.3) — single-token resolution with autocorrection
  (`MusicCat.search`, called `resolveId` in the spec).

Machine floats of the Python code are modelled as exact rationals `ℚ`; the
Python dictionary `self.songs` is modelled as an association list in insertion
order; the filesystem is modelled as the list of existing file paths; a raised
exception is modelled by an `Option`/error component in the result.
-/

open Levenshtein (Cost)

/-- Cost structure of the `python-Levenshtein` library function
`Levenshtein.ratio`: insertions and deletions cost 1, substitutions cost 2
(so that `ratio = (lensum - dist) / lensum` lies in `[0, 1]`). -/
def levCost : Cost Char Char Nat where
  delete _ := 1
  insert _ := 1
  substitute a b := if a = b then 0 else 2

/-- The external dependency `Levenshtein.ratio(a, b)` on character lists:
`(lensum - dist) / lensum` where `dist` is the edit distance with
substitution cost 2 and `lensum` the sum of the lengths (`1` when both
strings are empty, as in the library). -/
def ratioL (a b : List Char) : ℚ :=
  let lensum := a.length + b.length
  if lensum = 0 then 1 else ((lensum : ℚ) - levenshtein levCost a b) / lensum

/-- `Levenshtein.ratio` on strings, the similarity primitive used by both
resolution paths of the program. -/
def ratio (a b : String) : ℚ := ratioL a.data b.data

theorem levCost_delete (x : Char) : levCost.delete x = 1 := rfl

theorem levCost_insert (x : Char) : levCost.insert x = 1 := rfl

theorem levCost_substitute (x y : Char) :
    levCost.substitute x y = if x = y then 0 else 2 := rfl

theorem lev_nil_left (b : List Char) : levenshtein levCost [] b = b.length := by
  induction b with
  | nil => simp [levenshtein_nil_nil]
  | cons y ys ih =>
    rw [levenshtein_nil_cons, ih, levCost_insert, List.length_cons, Nat.add_comm]

theorem lev_nil_right (a : List Char) : levenshtein levCost a [] = a.length := by
  induction a with
  | nil => simp [levenshtein_nil_nil]
  | cons x xs ih =>
    rw [levenshtein_cons_nil, ih, levCost_delete, List.length_cons, Nat.add_comm]

theorem lev_self (l : List Char) : levenshtein levCost l l = 0 := by
  induction l with
  | nil => simp [levenshtein_nil_nil]
  | cons x xs ih =>
    rw [levenshtein_cons_cons, ih, levCost_substitute]
    simp

theorem lev_le_lensum (a b : List Char) :
    levenshtein levCost a b ≤ a.length + b.length := by
  induction a generalizing b with
  | nil => simp [lev_nil_left]
  | cons x xs ih =>
    cases b with
    | nil => simp [lev_nil_right, levCost_delete, Nat.add_comm]
    | cons y ys =>
      have h1 := ih (y :: ys)
      have h2 : levenshtein levCost (x :: xs) (y :: ys) ≤
          1 + levenshtein levCost xs (y :: ys) := by
        rw [levenshtein_cons_cons, levCost_delete]
        exact min_le_left _ _
      simp only [List.length_cons] at h1 ⊢
      omega

theorem lev_comm (a b : List Char) :
    levenshtein levCost a b = levenshtein levCost b a := by
  induction a generalizing b with
  | nil => simp [lev_nil_left, lev_nil_right]
  | cons x xs ih =>
    induction b with
    | nil => simp [lev_nil_left, lev_nil_right, levCost_delete, levCost_insert]
    | cons y ys ihb =>
      rw [levenshtein_cons_cons, levenshtein_cons_cons]
      have hsub : levCost.substitute x y = levCost.substitute y x := by
        rw [levCost_substitute, levCost_substitute]
        by_cases h : x = y
        · simp [h]
        · have h2 : ¬y = x := fun hyx => h hyx.symm
          simp [h, h2]
      rw [ih (y :: ys), ihb, ih ys, hsub]
      rw [levCost_delete, levCost_insert, levCost_delete, levCost_insert]
      rw [min_left_comm]

theorem ratioL_nonneg (a b : List Char) : 0 ≤ ratioL a b := by
  unfold ratioL
  by_cases h : a.length + b.length = 0
  · simp [h]
  · simp only [h, if_false]
    apply div_nonneg
    · have h1 := lev_le_lensum a b
      have hc : ((levenshtein levCost a b : ℕ) : ℚ) ≤ ((a.length + b.length : ℕ) : ℚ) := by
        exact_mod_cast h1
      push_cast at hc ⊢
      linarith
    · positivity

theorem ratioL_le_one (a b : List Char) : ratioL a b ≤ 1 := by
  unfold ratioL
  by_cases h : a.length + b.length = 0
  · simp [h]
  · simp only [h, if_false]
    have hpos : (0 : ℚ) < ((a.length + b.length : ℕ) : ℚ) := by
      exact_mod_cast Nat.pos_of_ne_zero h
    push_cast at hpos
    rw [div_le_one (by push_cast; linarith)]
    have hn : (0 : ℚ) ≤ ((levenshtein levCost a b : ℕ) : ℚ) := Nat.cast_nonneg _
    push_cast at hn ⊢
    linarith

theorem ratioL_comm (a b : List Char) : ratioL a b = ratioL b a := by
  unfold ratioL
  rw [lev_comm, Nat.add_comm b.length a.length]

theorem ratioL_self (l : List Char) (h : l ≠ []) : ratioL l l = 1 := by
  unfold ratioL
  have hlen : l.length + l.length ≠ 0 := by
    have : l.length ≠ 0 := fun h0 => h (List.length_eq_zero.mp h0)
    omega
  simp only [hlen, if_false, lev_self]
  have hpos : (0 : ℚ) < ((l.length + l.length : ℕ) : ℚ) := by
    exact_mod_cast Nat.pos_of_ne_zero hlen
  push_cast at hpos ⊢
  field_simp

/-- C9: the similarity function used by both resolution paths returns a ratio
in `[0, 1]`, is symmetric, and equals `1` on every non-empty string compared
with itself. -/
theorem c9_similarity :
    (∀ a b : String, 0 ≤ ratio a b ∧ ratio a b ≤ 1 ∧ ratio a b = ratio b a) ∧
    (∀ s : String, s ≠ "" → ratio s s = 1) := by
  constructor
  · intro a b
    exact ⟨ratioL_nonneg _ _, ratioL_le_one _ _, ratioL_comm _ _⟩
  · intro s hs
    apply ratioL_self
    intro hdata
    exact hs (by cases s; simp_all)

/-- Witness for C9 at the concrete string `"battle"`. -/
theorem c9_similarity_witness :
    ("battle" : String) ≠ "" ∧ ratio "battle" "battle" = 1 :=
  ⟨by decide, c9_similarity.2 "battle" (by decide)⟩

/-- The `Game` record (namedtuple `Game` with fields
`id, title, platform, year, series, path`). -/
structure Game where
  id : String
  title : String
  platform : String
  year : Int
  series : Option String
  path : Option String
deriving DecidableEq

/-- The `Song` record (namedtuple `Song` with fields
`id, title, path, types, game, fullpath`). -/
structure Song where
  id : String
  title : String
  path : String
  types : List String
  game : Game
  fullpath : String
deriving DecidableEq

/-- The catalog `self.songs`: a Python dictionary from song id to `Song`,
modelled as an association list in insertion order. -/
abbrev Catalog : Type := List (String × Song)

/-- Dictionary read `self.songs.get(k)` / `self.songs[k]`. -/
def lookupCat : Catalog → String → Option Song
  | [], _ => none
  | (k, v) :: rest, key => if k = key then some v else lookupCat rest key

/-- Membership test `k in self.songs`. -/
def hasKey (cat : Catalog) (k : String) : Bool := (lookupCat cat k).isSome

/-- The key list of the dictionary, the sequence `for s in self.songs`
iterates over (insertion order). -/
def catalogKeys (cat : Catalog) : List String :=
  cat.map (fun p => p.1)

/-- Outcome of `MusicCat.search` in `musiccat.py` (the spec calls it
`resolveId`): either the resolved `Song`, or one of the two raised errors.
`badMatch` is `raise BadMatchError(songid, best_match)` (it carries the best
candidate, which can be absent), `noMatch` is `raise NoMatchError(songid)`. -/
inductive ResolveResult where
  | found (s : Song)
  | badMatch (songid : String) (suggestion : Option String)
  | noMatch (songid : String)
deriving DecidableEq

/-- One step of the best-match scan: `if ratio > best_ratio: best_ratio,
best_match = ratio, s`. -/
def bestStep (songid : String) (acc : ℚ × Option String) (k : String) :
    ℚ × Option String :=
  if ratio songid k > acc.1 then (ratio songid k, some k) else acc

/-- The best-match scan of `MusicCat.search` in `musiccat.py`: starting from
`best_ratio = 0`, `best_match = None`, fold over the catalog keys. -/
def bestLoop (songid : String) (keys : List String) : ℚ × Option String :=
  keys.foldl (bestStep songid) (0, none)

/-- Embedding of `MusicCat.search` of `musiccat.py` (spec: `resolveId`):
exact lookup first, otherwise the best-match scan followed by the two
threshold comparisons (`self.minimum_autocorrect_ratio`,
`self.minimum_match_ratio` are taken as parameters; the source never
assigns them).  The result is `none` when `self.songs[best_match]` would
raise a `KeyError` (`best_match` is `None`). -/
def resolveId (cat : Catalog) (minAutocorrect minReliable : ℚ)
    (songid : String) : Option ResolveResult :=
  match lookupCat cat songid with
  | some song => some (.found song)
  | none =>
    let best := bestLoop songid (catalogKeys cat)
    if best.1 < minAutocorrect then some (.badMatch songid best.2)
    else if best.1 < minReliable then some (.noMatch songid)
    else
      match best.2 with
      | some k => (lookupCat cat k).map .found
      | none => none

theorem bestLoop_le (songid : String) (keys : List String) :
    ∀ acc : ℚ × Option String, acc.1 ≤ (keys.foldl (bestStep songid) acc).1 := by
  induction keys with
  | nil => intro acc; simp
  | cons k ks ih =>
    intro acc
    have h1 : acc.1 ≤ (bestStep songid acc k).1 := by
      unfold bestStep
      by_cases h : ratio songid k > acc.1
      · simp [h]; linarith
      · simp [h]
    calc acc.1 ≤ (bestStep songid acc k).1 := h1
      _ ≤ (ks.foldl (bestStep songid) (bestStep songid acc k)).1 := ih _

theorem bestLoop_mem_le (songid : String) (keys : List String) :
    ∀ acc : ℚ × Option String, ∀ k ∈ keys,
      ratio songid k ≤ (keys.foldl (bestStep songid) acc).1 := by
  induction keys with
  | nil => intro acc k hk; simp at hk
  | cons k0 ks ih =>
    intro acc k hk
    rcases List.mem_cons.mp hk with h | h
    · subst h
      have h1 : ratio songid k ≤ (bestStep songid acc k).1 := by
        unfold bestStep
        by_cases hgt : ratio songid k > acc.1
        · simp [hgt]
        · simp [hgt]; linarith
      calc ratio songid k ≤ (bestStep songid acc k).1 := h1
        _ ≤ (ks.foldl (bestStep songid) (bestStep songid acc k)).1 :=
          bestLoop_le songid ks _
    · exact ih _ k h

theorem bestLoop_cases (songid : String) (keys : List String) :
    ∀ acc : ℚ × Option String,
      (keys.foldl (bestStep songid) acc) = acc ∨
      ∃ k ∈ keys, (keys.foldl (bestStep songid) acc).2 = some k ∧
        (keys.foldl (bestStep songid) acc).1 = ratio songid k := by
  induction keys with
  | nil => intro acc; left; rfl
  | cons k0 ks ih =>
    intro acc
    rcases ih (bestStep songid acc k0) with h | ⟨k, hk, h2, h1⟩
    · by_cases hgt : ratio songid k0 > acc.1
      · have hstep : bestStep songid acc k0 = (ratio songid k0, some k0) := by
          simp [bestStep, hgt]
        rw [hstep] at h
        right
        refine ⟨k0, List.mem_cons_self _ _, ?_, ?_⟩
        · simp only [List.foldl_cons]
          rw [hstep, h]
        · simp only [List.foldl_cons]
          rw [hstep, h]
      · have hstep : bestStep songid acc k0 = acc := by
          simp [bestStep, hgt]
        rw [hstep] at h
        left
        simp only [List.foldl_cons]
        rw [hstep, h]
    · right
      exact ⟨k, List.mem_cons_of_mem _ hk, by simpa using h2, by simpa using h1⟩

theorem mem_catalogKeys_lookup (cat : Catalog) (k : String)
    (h : k ∈ catalogKeys cat) : ∃ s, lookupCat cat k = some s := by
  induction cat with
  | nil => simp [catalogKeys] at h
  | cons p rest ih =>
    by_cases hpk : p.1 = k
    · exact ⟨p.2, by simp [lookupCat, hpk]⟩
    · have : k ∈ catalogKeys rest := by
        rcases List.mem_cons.mp h with h0 | h0
        · exact absurd h0.symm hpk
        · exact h0
      rcases ih this with ⟨s, hs⟩
      exact ⟨s, by simp [lookupCat, hpk, hs]⟩

/-- C5: an id that is present as a key of the catalog map resolves to the
stored `Song` immediately, for every pair of threshold values — the exact
path never reaches the similarity scan. -/
theorem c5_exact_lookup (cat : Catalog) (minAutocorrect minReliable : ℚ)
    (q : String) (s : Song) (h : lookupCat cat q = some s) :
    resolveId cat minAutocorrect minReliable q = some (.found s) := by
  unfold resolveId
  rw [h]

/-- Game fixture for concrete scenarios. -/
def gameA : Game :=
  { id := "game1", title := "Boss Game", platform := "gba", year := 2001,
    series := none, path := none }

/-- Song fixture stored under the id `boss_theme`. -/
def songBoss : Song :=
  { id := "boss_theme", title := "Boss Battle", path := "boss.brstm",
    types := ["battle"], game := gameA, fullpath := "lib/boss.brstm" }

/-- Song fixture stored under the id `town_theme`. -/
def songTown : Song :=
  { id := "town_theme", title := "Town", path := "town.brstm",
    types := ["town"], game := gameA, fullpath := "lib/town.brstm" }

/-- Concrete catalog with the two ids `boss_theme` and `town_theme`. -/
def c1cat : Catalog := [("boss_theme", songBoss), ("town_theme", songTown)]

/-- Witness for C5: resolving the existing id `boss_theme` returns its song. -/
theorem c5_exact_lookup_witness :
    lookupCat c1cat "boss_theme" = some songBoss ∧
    resolveId c1cat (3/10) (8/10) "boss_theme" = some (.found songBoss) :=
  ⟨by decide, c5_exact_lookup c1cat (3/10) (8/10) "boss_theme" songBoss (by decide)⟩

/-- C1 (counterexample): with catalog keys `boss_theme`, `town_theme`,
thresholds `minAutocorrect = 3/10`, `minReliable = 8/10`, the query `bosse`
has best ratio `2/3`, which lies in the middle tier; the claim says this
fails with the suggestion-carrying error (`AmbiguousMatch`), but the code
raises `NoMatchError`, which carries no suggestion. -/
theorem c1_counterexample :
    (3 : ℚ)/10 ≤ (bestLoop "bosse" (catalogKeys c1cat)).1 ∧
    (bestLoop "bosse" (catalogKeys c1cat)).1 < 8/10 ∧
    resolveId c1cat (3/10) (8/10) "bosse" = some (.noMatch "bosse") ∧
    ResolveResult.noMatch "bosse" ≠ .badMatch "bosse" (some "boss_theme") := by
  have hkeys : catalogKeys c1cat = ["boss_theme", "town_theme"] := by decide
  have hl1 : levenshtein levCost "bosse".data "boss_theme".data = 5 := by decide
  have hl2 : levenshtein levCost "bosse".data "town_theme".data = 11 := by decide
  have hr1 : ratio "bosse" "boss_theme" = 2/3 := by
    simp [ratio, ratioL, hl1]
    norm_num
  have hr2 : ratio "bosse" "town_theme" = 4/15 := by
    simp [ratio, ratioL, hl2]
    norm_num
  have hbest : bestLoop "bosse" (catalogKeys c1cat) = (2/3, some "boss_theme") := by
    rw [hkeys]
    unfold bestLoop
    simp only [List.foldl_cons, List.foldl_nil, bestStep, hr1, hr2]
    norm_num
  have hlook : lookupCat c1cat "bosse" = none := by decide
  refine ⟨by rw [hbest]; norm_num, by rw [hbest]; norm_num, ?_, by decide⟩
  unfold resolveId
  rw [hlook, hbest]
  norm_num

/-- C1 (amended): for a query that is not an exact key, the scan computes the
best ratio over all catalog keys and the outcome is three-tiered, but with
the two failure payloads the other way round from the claim: below
`minAutocorrect` the failure carries the best candidate as suggestion
(`BadMatchError`), between the thresholds the failure is the plain
`NoMatchError`, and at or above `minReliable` the song stored under the
best-scoring key is returned. -/
theorem c1_amended (cat : Catalog) (minAutocorrect minReliable : ℚ)
    (q : String)
    (hq : lookupCat cat q = none)
    (hle : minAutocorrect ≤ minReliable)
    (hpos : 0 < minReliable) :
    (∀ k ∈ catalogKeys cat, ratio q k ≤ (bestLoop q (catalogKeys cat)).1) ∧
    ((bestLoop q (catalogKeys cat)).1 < minAutocorrect →
      resolveId cat minAutocorrect minReliable q =
        some (.badMatch q (bestLoop q (catalogKeys cat)).2)) ∧
    (minAutocorrect ≤ (bestLoop q (catalogKeys cat)).1 →
      (bestLoop q (catalogKeys cat)).1 < minReliable →
      resolveId cat minAutocorrect minReliable q = some (.noMatch q)) ∧
    (minReliable ≤ (bestLoop q (catalogKeys cat)).1 →
      ∃ k s, (bestLoop q (catalogKeys cat)).2 = some k ∧
        ratio q k = (bestLoop q (catalogKeys cat)).1 ∧
        lookupCat cat k = some s ∧
        resolveId cat minAutocorrect minReliable q = some (.found s)) := by
  refine ⟨?_, ?_, ?_, ?_⟩
  · intro k hk
    exact bestLoop_mem_le q (catalogKeys cat) (0, none) k hk
  · intro hlt
    unfold resolveId
    rw [hq]
    simp only []
    rw [if_pos hlt]
  · intro h1 h2
    unfold resolveId
    rw [hq]
    simp only []
    rw [if_neg (not_lt.mpr h1), if_pos h2]
  · intro hge
    have hnot1 : ¬ (bestLoop q (catalogKeys cat)).1 < minAutocorrect :=
      not_lt.mpr (le_trans hle hge)
    have hnot2 : ¬ (bestLoop q (catalogKeys cat)).1 < minReliable :=
      not_lt.mpr hge
    rcases bestLoop_cases q (catalogKeys cat) (0, none) with hc | ⟨k, hk, h2, h1⟩
    · exfalso
      have : (bestLoop q (catalogKeys cat)).1 = 0 := by
        unfold bestLoop
        rw [hc]
      rw [this] at hge
      linarith
    · rcases mem_catalogKeys_lookup cat k hk with ⟨s, hs⟩
      refine ⟨k, s, ?_, ?_, hs, ?_⟩
      · exact h2
      · exact h1.symm
      · unfold resolveId
        rw [hq]
        simp only []
        rw [if_neg hnot1, if_neg hnot2]
        have hb2 : (bestLoop q (catalogKeys cat)).2 = some k := h2
        rw [hb2]
        show Option.map ResolveResult.found (lookupCat cat k) =
          some (ResolveResult.found s)
        rw [hs]
        rfl

/-- Witness for C1 (amended) at the concrete catalog `c1cat` and query
`bosse`, discharging the three hypotheses. -/
theorem c1_amended_witness :
    lookupCat c1cat "bosse" = none ∧ ((3 : ℚ)/10 ≤ 8/10) ∧ ((0 : ℚ) < 8/10) ∧
    ((∀ k ∈ catalogKeys c1cat, ratio "bosse" k ≤ (bestLoop "bosse" (catalogKeys c1cat)).1) ∧
    ((bestLoop "bosse" (catalogKeys c1cat)).1 < 3/10 →
      resolveId c1cat (3/10) (8/10) "bosse" =
        some (.badMatch "bosse" (bestLoop "bosse" (catalogKeys c1cat)).2)) ∧
    ((3 : ℚ)/10 ≤ (bestLoop "bosse" (catalogKeys c1cat)).1 →
      (bestLoop "bosse" (catalogKeys c1cat)).1 < 8/10 →
      resolveId c1cat (3/10) (8/10) "bosse" = some (.noMatch "bosse")) ∧
    ((8 : ℚ)/10 ≤ (bestLoop "bosse" (catalogKeys c1cat)).1 →
      ∃ k s, (bestLoop "bosse" (catalogKeys c1cat)).2 = some k ∧
        ratio "bosse" k = (bestLoop "bosse" (catalogKeys c1cat)).1 ∧
        lookupCat c1cat k = some s ∧
        resolveId c1cat (3/10) (8/10) "bosse" = some (.found s))) :=
  ⟨by decide, by norm_num, by norm_num,
    c1_amended c1cat (3/10) (8/10) "bosse" (by decide) (by norm_num) (by norm_num)⟩

/-- Configuration flags of `MusicCat.__init__`: each "sanity check" of
`_import_metadata` raises unless its exception is disabled. -/
structure Config where
  disable_nobrstm_exception : Bool := false
  disable_id_conflict_exception : Bool := false
deriving DecidableEq

/-- The default configuration: both exceptions enabled (fatal). -/
def defaultCfg : Config := {}

/-- Exceptions that `_import_metadata` can raise (plus the parse failure of
`yaml.load` / record construction, caught by `refresh_song_list`). -/
inductive ImportError where
  | songIdConflict (songId : String)
  | fileNotFound (path : String)
  | parseError
deriving DecidableEq

/-- One parsed song entry of a metadata document, before normalization:
`typeField` is the singular `type` key when present, `typesField` the
`types` key. -/
structure SongEntry where
  id : String
  title : String
  path : String
  typeField : Option String
  typesField : List String
deriving DecidableEq

/-- One parsed metadata document: its containing directory
(`os.path.dirname(metafilename)`), the `Game` record built from the
game-level fields, and the `songs` list. -/
structure Doc where
  dir : String
  game : Game
  songs : List SongEntry
deriving DecidableEq

/-- Model of `os.path.join(path, song["path"])`. -/
def joinPath (d p : String) : String := d ++ "/" ++ p

/-- Construction of the `Song` record inside the import loop:
`song["fullpath"] = os.path.join(path, song["path"])`,
`song["game"] = game`, and the `type` scalar is normalized into a
one-element `types` list. -/
def mkSong (dir : String) (g : Game) (e : SongEntry) : Song :=
  { id := e.id, title := e.title, path := e.path,
    types := match e.typeField with
             | some t => [t]
             | none => e.typesField,
    game := g,
    fullpath := joinPath dir e.path }

/-- The "sanity checks" of `_import_metadata` (lines 112-127) for one song:
first the catalog-level id check, then the (dead) same-document check on
`newsongs`, then the file-existence check; each raises only when its
exception is not disabled.  `fs` is the list of paths for which
`os.path.isfile` holds, `ns` models the `newsongs` key set. -/
def importSongCheck (cfg : Config) (fs : List String) (cat : Catalog)
    (ns : List String) (s : Song) : Option ImportError :=
  if hasKey cat s.id && !cfg.disable_id_conflict_exception then
    some (.songIdConflict s.id)
  else if ns.contains s.id && !cfg.disable_id_conflict_exception then
    some (.songIdConflict s.id)
  else if !fs.contains s.fullpath && !cfg.disable_nobrstm_exception then
    some (.fileNotFound s.fullpath)
  else none

/-- Dictionary write `self.songs[k] = v`: replace in place when the key is
present, append otherwise. -/
def dictInsert : Catalog → String → Song → Catalog
  | [], k, v => [(k, v)]
  | (k0, v0) :: rest, k, v =>
    if k0 = k then (k, v) :: rest else (k0, v0) :: dictInsert rest k v

/-- The song loop of `_import_metadata`: process the entries in order; on
the first raised check the loop stops with the catalog as mutated so far
(the raise happens before the insertion of the failing song).  `newsongs`
(`ns`) is created empty and — as in the source — never extended. -/
def importLoop (cfg : Config) (fs : List String) (dir : String) (g : Game) :
    Catalog → List String → List SongEntry → Catalog × Option ImportError
  | cat, _, [] => (cat, none)
  | cat, ns, e :: rest =>
    let s := mkSong dir g e
    match importSongCheck cfg fs cat ns s with
    | some err => (cat, some err)
    | none => importLoop cfg fs dir g (dictInsert cat s.id s) ns rest

/-- Embedding of `_import_metadata`: a document that fails to parse
(`yaml.load` or record construction raises) leaves the catalog unchanged;
otherwise run the song loop with `newsongs = {}`. -/
def importMeta (cfg : Config) (fs : List String) (cat : Catalog)
    (doc : Option Doc) : Catalog × Option ImportError :=
  match doc with
  | none => (cat, some .parseError)
  | some d => importLoop cfg fs d.dir d.game cat [] d.songs

/-- Embedding of `refresh_song_list`: clear the catalog, then import every
metadata document in walk order; the `try/except` around
`self._import_metadata(metafilename)` logs the exception and continues, so
only the catalog component of each result is kept. -/
def refreshSongList (cfg : Config) (fs : List String)
    (docs : List (Option Doc)) : Catalog :=
  docs.foldl (fun cat doc => (importMeta cfg fs cat doc).1) []

/-- Configuration with the id-conflict exception disabled. -/
def cfgNoConflict : Config := { disable_id_conflict_exception := true }

/-- Configuration with the missing-file exception disabled. -/
def cfgNoFile : Config := { disable_nobrstm_exception := true }

/-- Configuration with both exceptions disabled (the "log-and-skip"
configuration of the spec). -/
def skipCfg : Config :=
  { disable_nobrstm_exception := true, disable_id_conflict_exception := true }

/-- C6 (amended): under the default configuration the per-song checks raise
an id-conflict error exactly when the id is already a catalog key (songs are
inserted one at a time, so this covers both an id from an earlier document
and an id produced earlier in the same document) or is in the — in fact never
populated — `newsongs` set, and raise a missing-file error exactly when the
id does not conflict (the conflict checks run first) and the fullpath is not
an existing file; disabling a flag suppresses exactly that error. -/
theorem c6_amended :
    ∀ (fs : List String) (cat : Catalog) (ns : List String) (s : Song),
      (importSongCheck defaultCfg fs cat ns s = some (.songIdConflict s.id) ↔
        (hasKey cat s.id = true ∨ ns.contains s.id = true)) ∧
      (importSongCheck defaultCfg fs cat ns s = some (.fileNotFound s.fullpath) ↔
        (hasKey cat s.id = false ∧ ns.contains s.id = false ∧
          fs.contains s.fullpath = false)) ∧
      ((∀ i, importSongCheck cfgNoConflict fs cat ns s ≠ some (.songIdConflict i)) ∧
        (importSongCheck cfgNoConflict fs cat ns s = some (.fileNotFound s.fullpath) ↔
          fs.contains s.fullpath = false)) ∧
      ((∀ p, importSongCheck cfgNoFile fs cat ns s ≠ some (.fileNotFound p)) ∧
        (importSongCheck cfgNoFile fs cat ns s = some (.songIdConflict s.id) ↔
          (hasKey cat s.id = true ∨ ns.contains s.id = true))) := by
  intro fs cat ns s
  cases hk : hasKey cat s.id <;> by_cases hns : s.id ∈ ns <;>
    by_cases hf : s.fullpath ∈ fs <;>
      simp [importSongCheck, defaultCfg, cfgNoConflict, cfgNoFile, hk, hns, hf]

/-- Song entry whose id collides with `boss_theme` and whose file is
absent. -/
def c6entry : SongEntry :=
  { id := "boss_theme", title := "Duplicate", path := "missing.brstm",
    typeField := none, typesField := [] }

/-- Catalog already holding the id `boss_theme`. -/
def c6cat : Catalog := [("boss_theme", songBoss)]

/-- C6 (counterexample): a song whose id conflicts *and* whose file is
missing raises the id-conflict error, not the missing-file error, although
the claim says a missing-file error is raised exactly when the fullpath does
not reference an existing file. -/
theorem c6_counterexample :
    ([] : List String).contains (mkSong "lib" gameA c6entry).fullpath = false ∧
    importSongCheck defaultCfg [] c6cat [] (mkSong "lib" gameA c6entry) =
      some (.songIdConflict "boss_theme") ∧
    importSongCheck defaultCfg [] c6cat [] (mkSong "lib" gameA c6entry) ≠
      some (.fileNotFound (mkSong "lib" gameA c6entry).fullpath) := by
  decide

/-- Game record of the first conflict-scenario document. -/
def g1 : Game :=
  { id := "game1", title := "Game One", platform := "gba", year := 2001,
    series := none, path := none }

/-- Game record of the second conflict-scenario document. -/
def g2 : Game :=
  { id := "game2", title := "Game Two", platform := "snes", year := 1995,
    series := none, path := none }

/-- First declaration of the id `theme01` (document one). -/
def entryTheme1 : SongEntry :=
  { id := "theme01", title := "Opening v1", path := "theme01.brstm",
    typeField := some "intro", typesField := [] }

/-- A further song of document one. -/
def entryAlpha : SongEntry :=
  { id := "alpha", title := "Alpha", path := "alpha.brstm",
    typeField := none, typesField := ["battle"] }

/-- Second declaration of the id `theme01` (document two). -/
def entryTheme2 : SongEntry :=
  { id := "theme01", title := "Opening v2", path := "theme01.brstm",
    typeField := some "intro", typesField := [] }

/-- A further song of document two, whose file is missing from `c2fs`. -/
def entryBeta : SongEntry :=
  { id := "beta", title := "Beta", path := "beta.brstm",
    typeField := none, typesField := ["credits"] }

/-- Document one of the conflict scenario. -/
def c2doc1 : Doc := { dir := "lib/game1", game := g1, songs := [entryTheme1, entryAlpha] }

/-- Document two of the conflict scenario. -/
def c2doc2 : Doc := { dir := "lib/game2", game := g2, songs := [entryTheme2, entryBeta] }

/-- Files existing on disk in the conflict scenario (`beta.brstm` is
missing). -/
def c2fs : List String :=
  ["lib/game1/theme01.brstm", "lib/game1/alpha.brstm", "lib/game2/theme01.brstm"]

/-- Refresh of the two conflict-scenario documents under the log-and-skip
configuration. -/
def c2refresh : Catalog := refreshSongList skipCfg c2fs [some c2doc1, some c2doc2]

/-- C2 (counterexample): under log-and-skip configuration the second
`theme01` is *inserted*, overwriting the first (the claim says the catalog
retains only the first), and the missing-file song `beta` is inserted as
well (the claim says such a song is not inserted). -/
theorem c2_counterexample :
    lookupCat c2refresh "theme01" = some (mkSong "lib/game2" g2 entryTheme2) ∧
    mkSong "lib/game2" g2 entryTheme2 ≠ mkSong "lib/game1" g1 entryTheme1 ∧
    c2fs.contains (mkSong "lib/game2" g2 entryBeta).fullpath = false ∧
    lookupCat c2refresh "beta" = some (mkSong "lib/game2" g2 entryBeta) ∧
    lookupCat c2refresh "alpha" = some (mkSong "lib/game1" g1 entryAlpha) := by
  decide

/-- C2 (amended): with both exceptions disabled, the import loop never
fails and inserts *every* song of the document in order via dictionary
assignment — a conflicting or missing-file song is logged but still
inserted, so a duplicated id ends up mapped to the *last* processed song
while all other songs of both documents remain present. -/
theorem c2_amended (cfg : Config) (fs : List String) (dir : String) (g : Game)
    (cat : Catalog) (ns : List String) (entries : List SongEntry)
    (h1 : cfg.disable_id_conflict_exception = true)
    (h2 : cfg.disable_nobrstm_exception = true) :
    importLoop cfg fs dir g cat ns entries =
      (entries.foldl
        (fun c e => dictInsert c (mkSong dir g e).id (mkSong dir g e)) cat,
       none) := by
  induction entries generalizing cat with
  | nil => rfl
  | cons e rest ih =>
    have hchk : importSongCheck cfg fs cat ns (mkSong dir g e) = none := by
      simp [importSongCheck, h1, h2]
    simp only [importLoop, hchk, List.foldl_cons]
    exact ih _

/-- Witness for C2 (amended): importing document two of the conflict
scenario on top of document one under the log-and-skip configuration. -/
theorem c2_amended_witness :
    skipCfg.disable_id_conflict_exception = true ∧
    skipCfg.disable_nobrstm_exception = true ∧
    importLoop skipCfg c2fs "lib/game2" g2
        (refreshSongList skipCfg c2fs [some c2doc1]) [] c2doc2.songs =
      (c2doc2.songs.foldl
        (fun c e =>
          dictInsert c (mkSong "lib/game2" g2 e).id (mkSong "lib/game2" g2 e))
        (refreshSongList skipCfg c2fs [some c2doc1]),
       none) :=
  ⟨rfl, rfl,
    c2_amended skipCfg c2fs "lib/game2" g2
      (refreshSongList skipCfg c2fs [some c2doc1]) [] c2doc2.songs rfl rfl⟩

/-- Structural invariant of the catalog: every key of the song map equals
the id field of the `Song` stored under it. -/
def WellKeyed (cat : Catalog) : Prop := ∀ p ∈ cat, p.1 = p.2.id

theorem wellKeyed_dictInsert (cat : Catalog) (s : Song)
    (h : WellKeyed cat) : WellKeyed (dictInsert cat s.id s) := by
  induction cat with
  | nil =>
    intro p hp
    simp [dictInsert] at hp
    subst hp
    rfl
  | cons q rest ih =>
    intro p hp
    by_cases hq : q.1 = s.id
    · simp only [dictInsert, hq, if_true] at hp
      rcases List.mem_cons.mp hp with h0 | h0
      · subst h0; rfl
      · exact h p (List.mem_cons_of_mem _ h0)
    · simp only [dictInsert, hq, if_false] at hp
      rcases List.mem_cons.mp hp with h0 | h0
      · subst h0; exact h q (List.mem_cons_self _ _)
      · exact ih (fun r hr => h r (List.mem_cons_of_mem _ hr)) p h0

theorem wellKeyed_importLoop (cfg : Config) (fs : List String) (dir : String)
    (g : Game) (entries : List SongEntry) :
    ∀ cat ns, WellKeyed cat →
      WellKeyed (importLoop cfg fs dir g cat ns entries).1 := by
  induction entries with
  | nil => intro cat ns h; exact h
  | cons e rest ih =>
    intro cat ns h
    simp only [importLoop]
    cases hchk : importSongCheck cfg fs cat ns (mkSong dir g e) with
    | some err => exact h
    | none => exact ih _ ns (wellKeyed_dictInsert cat (mkSong dir g e) h)

theorem wellKeyed_importMeta (cfg : Config) (fs : List String) (cat : Catalog)
    (doc : Option Doc) (h : WellKeyed cat) :
    WellKeyed (importMeta cfg fs cat doc).1 := by
  cases doc with
  | none => exact h
  | some d => exact wellKeyed_importLoop cfg fs d.dir d.game d.songs cat [] h

/-- C8: every key of the song map equals the id of the song stored under it
— the invariant holds for the result of any refresh, and is preserved by any
single document import from any well-keyed catalog state. -/
theorem c8_invariant :
    (∀ cfg fs docs, WellKeyed (refreshSongList cfg fs docs)) ∧
    (∀ cfg fs cat doc, WellKeyed cat →
      WellKeyed (importMeta cfg fs cat doc).1) := by
  constructor
  · intro cfg fs docs
    unfold refreshSongList
    have hgen : ∀ (ds : List (Option Doc)) (cat : Catalog), WellKeyed cat →
        WellKeyed (ds.foldl (fun c doc => (importMeta cfg fs c doc).1) cat) := by
      intro ds
      induction ds with
      | nil => intro cat h; exact h
      | cons d rest ih =>
        intro cat h
        exact ih _ (wellKeyed_importMeta cfg fs cat d h)
    exact hgen docs [] (by intro p hp; simp at hp)
  · intro cfg fs cat doc h
    exact wellKeyed_importMeta cfg fs cat doc h

/-- Witness for C8: the invariant transported through a concrete import. -/
theorem c8_invariant_witness :
    WellKeyed c6cat ∧ WellKeyed (importMeta defaultCfg c2fs c6cat (some c2doc1)).1 :=
  ⟨by intro p hp; simp [c6cat] at hp; subst hp; rfl,
    c8_invariant.2 defaultCfg c2fs c6cat (some c2doc1)
      (by intro p hp; simp [c6cat] at hp; subst hp; rfl)⟩

/-- C7: a document whose import raises (parse error, conflict, missing file
or any other failure) does not abort the refresh: the catalog walk continues
with every remaining document, starting from whatever catalog state the
failing import left behind. -/
theorem c7_refresh_continues (cfg : Config) (fs : List String)
    (docsA docsB : List (Option Doc)) (d : Option Doc) (e : ImportError)
    (herr : (importMeta cfg fs (refreshSongList cfg fs docsA) d).2 = some e) :
    refreshSongList cfg fs (docsA ++ d :: docsB) =
      docsB.foldl (fun cat doc => (importMeta cfg fs cat doc).1)
        (importMeta cfg fs (refreshSongList cfg fs docsA) d).1 := by
  unfold refreshSongList
  rw [List.foldl_append]
  rfl

/-- Witness for C7: a parse failure in the first document does not stop the
second document from being imported (its song `alpha` ends in the catalog). -/
theorem c7_refresh_continues_witness :
    (importMeta defaultCfg c2fs (refreshSongList defaultCfg c2fs []) none).2 =
      some .parseError ∧
    refreshSongList defaultCfg c2fs ([] ++ none :: [some c2doc1]) =
      [some c2doc1].foldl (fun cat doc => (importMeta defaultCfg c2fs cat doc).1)
        (importMeta defaultCfg c2fs (refreshSongList defaultCfg c2fs []) none).1 ∧
    lookupCat (refreshSongList defaultCfg c2fs ([] ++ none :: [some c2doc1]))
        "alpha" = some (mkSong "lib/game1" g1 entryAlpha) :=
  ⟨rfl,
    c7_refresh_continues defaultCfg c2fs [] [some c2doc1] none .parseError rfl,
    by decide⟩

theorem lookup_dictInsert_isSome (cat : Catalog) (k i : String) (s : Song)
    (h : (lookupCat cat k).isSome = true) :
    (lookupCat (dictInsert cat i s) k).isSome = true := by
  induction cat with
  | nil => simp [lookupCat] at h
  | cons q rest ih =>
    obtain ⟨k0, v0⟩ := q
    by_cases hqi : k0 = i
    · subst hqi
      by_cases hqk : k0 = k
      · simp [dictInsert, lookupCat, hqk]
      · simp only [lookupCat, if_neg hqk] at h
        simp only [dictInsert, if_pos rfl]
        simp only [lookupCat, if_neg hqk]
        exact h
    · by_cases hqk : k0 = k
      · subst hqk
        simp only [dictInsert, if_neg hqi, lookupCat, if_pos rfl]
        simp
      · simp only [lookupCat, if_neg hqk] at h
        simp only [dictInsert, if_neg hqi, lookupCat, if_neg hqk]
        exact ih h

theorem lookup_dictInsert_ne (cat : Catalog) (k i : String) (s : Song)
    (h : k ≠ i) : lookupCat (dictInsert cat i s) k = lookupCat cat k := by
  induction cat with
  | nil =>
    simp only [dictInsert, lookupCat]
    rw [if_neg (fun hik => h hik.symm)]
  | cons q rest ih =>
    obtain ⟨k0, v0⟩ := q
    by_cases hqi : k0 = i
    · subst hqi
      simp only [dictInsert, if_pos rfl, lookupCat]
      rw [if_neg (fun hik => h hik.symm), if_neg (fun hik => h hik.symm)]
    · simp only [dictInsert, if_neg hqi, lookupCat]
      by_cases hqk : k0 = k
      · rw [if_pos hqk, if_pos hqk]
      · rw [if_neg hqk, if_neg hqk]
        exact ih

theorem importLoop_lookup_isSome (cfg : Config) (fs : List String)
    (dir : String) (g : Game) (entries : List SongEntry) :
    ∀ cat ns k, (lookupCat cat k).isSome = true →
      (lookupCat (importLoop cfg fs dir g cat ns entries).1 k).isSome = true := by
  induction entries with
  | nil => intro cat ns k h; exact h
  | cons e rest ih =>
    intro cat ns k h
    simp only [importLoop]
    cases hchk : importSongCheck cfg fs cat ns (mkSong dir g e) with
    | some err => exact h
    | none =>
      exact ih _ ns k (lookup_dictInsert_isSome cat k (mkSong dir g e).id _ h)

theorem importLoop_lookup_eq_of_fatal (cfg : Config) (fs : List String)
    (dir : String) (g : Game) (entries : List SongEntry)
    (hcfg : cfg.disable_id_conflict_exception = false) :
    ∀ cat ns k v, lookupCat cat k = some v →
      lookupCat (importLoop cfg fs dir g cat ns entries).1 k = some v := by
  induction entries with
  | nil => intro cat ns k v h; exact h
  | cons e rest ih =>
    intro cat ns k v h
    simp only [importLoop]
    cases hchk : importSongCheck cfg fs cat ns (mkSong dir g e) with
    | some err => exact h
    | none =>
      have hfresh : hasKey cat (mkSong dir g e).id = false := by
        by_contra hc
        have hk : hasKey cat (mkSong dir g e).id = true :=
          eq_true_of_ne_false (fun hf => hc hf)
        simp [importSongCheck, hk, hcfg] at hchk
      have hkne : k ≠ (mkSong dir g e).id := by
        intro hk
        rw [← hk] at hfresh
        unfold hasKey at hfresh
        rw [h] at hfresh
        simp at hfresh
      apply ih _ ns k v
      rw [lookup_dictInsert_ne cat k (mkSong dir g e).id _ hkne]
      exact h

theorem importLoop_append_of_ok (cfg : Config) (fs : List String)
    (dir : String) (g : Game) (ns : List String) :
    ∀ (done : List SongEntry) (tail : List SongEntry) (cat cat1 : Catalog),
      importLoop cfg fs dir g cat ns done = (cat1, none) →
      importLoop cfg fs dir g cat ns (done ++ tail) =
        importLoop cfg fs dir g cat1 ns tail := by
  intro done
  induction done with
  | nil =>
    intro tail cat cat1 h
    simp only [importLoop] at h
    have : cat = cat1 := congrArg Prod.fst h
    rw [List.nil_append, this]
  | cons e rest ih =>
    intro tail cat cat1 h
    simp only [importLoop] at h ⊢
    cases hchk : importSongCheck cfg fs cat ns (mkSong dir g e) with
    | some err =>
      rw [hchk] at h
      simp at h
    | none =>
      rw [hchk] at h
      exact ih tail _ cat1 h

/-- C10: document import is not atomic and refresh is not aborted by it.
If the first `done` songs of a document pass their checks, producing the
mutated catalog `cat1`, and the next song fails its check, then the whole
whole import stops with exactly `cat1` — every earlier song remains, no
rollback happens; every key of the starting catalog is still present, and
(whenever id-conflict exceptions are enabled, so that no overwrite can have
happened) every stored song of the starting catalog is unchanged; and the
refresh continues with the remaining documents from `cat1`, discarding the
error. -/
theorem c10_nonatomic (cfg : Config) (fs : List String) (dir : String)
    (g : Game) (cat cat1 : Catalog) (done : List SongEntry) (e : SongEntry)
    (rest : List SongEntry) (err : ImportError)
    (hdone : importLoop cfg fs dir g cat [] done = (cat1, none))
    (herr : importSongCheck cfg fs cat1 [] (mkSong dir g e) = some err) :
    importLoop cfg fs dir g cat [] (done ++ e :: rest) = (cat1, some err) ∧
    (∀ k, (lookupCat cat k).isSome = true → (lookupCat cat1 k).isSome = true) ∧
    (cfg.disable_id_conflict_exception = false →
      ∀ k v, lookupCat cat k = some v → lookupCat cat1 k = some v) ∧
    (∀ docsB : List (Option Doc),
      docsB.foldl (fun c doc => (importMeta cfg fs c doc).1)
        (importMeta cfg fs cat (some ⟨dir, g, done ++ e :: rest⟩)).1 =
      docsB.foldl (fun c doc => (importMeta cfg fs c doc).1) cat1) := by
  have h1 : importLoop cfg fs dir g cat [] (done ++ e :: rest) =
      (cat1, some err) := by
    rw [importLoop_append_of_ok cfg fs dir g [] done (e :: rest) cat cat1 hdone]
    simp only [importLoop, herr]
  refine ⟨h1, ?_, ?_, ?_⟩
  · intro k hk
    have := importLoop_lookup_isSome cfg fs dir g done cat [] k hk
    rw [hdone] at this
    exact this
  · intro hcfg k v hv
    have := importLoop_lookup_eq_of_fatal cfg fs dir g done hcfg cat [] k v hv
    rw [hdone] at this
    exact this
  · intro docsB
    have h2 : (importMeta cfg fs cat (some ⟨dir, g, done ++ e :: rest⟩)).1 = cat1 := by
      simp only [importMeta, h1]
    rw [h2]

/-- Catalog state after the first song of document two passed its checks. -/
def c10cat1 : Catalog := [("theme01", mkSong "lib/game2" g2 entryTheme2)]

/-- Witness for C10: in document two, `theme01` imports fine, `beta` fails
the file check, and the loop stops with `theme01` still inserted. -/
theorem c10_nonatomic_witness :
    importLoop defaultCfg c2fs "lib/game2" g2 [] [] [entryTheme2] =
      (c10cat1, none) ∧
    importSongCheck defaultCfg c2fs c10cat1 [] (mkSong "lib/game2" g2 entryBeta) =
      some (.fileNotFound "lib/game2/beta.brstm") ∧
    (importLoop defaultCfg c2fs "lib/game2" g2 [] []
        ([entryTheme2] ++ entryBeta :: [entryAlpha]) =
      (c10cat1, some (.fileNotFound "lib/game2/beta.brstm")) ∧
    (∀ k, (lookupCat ([] : Catalog) k).isSome = true →
      (lookupCat c10cat1 k).isSome = true) ∧
    (defaultCfg.disable_id_conflict_exception = false →
      ∀ k v, lookupCat ([] : Catalog) k = some v → lookupCat c10cat1 k = some v) ∧
    (∀ docsB : List (Option Doc),
      docsB.foldl (fun c doc => (importMeta defaultCfg c2fs c doc).1)
        (importMeta defaultCfg c2fs ([] : Catalog)
          (some ⟨"lib/game2", g2, [entryTheme2] ++ entryBeta :: [entryAlpha]⟩)).1 =
      docsB.foldl (fun c doc => (importMeta defaultCfg c2fs c doc).1) c10cat1)) :=
  ⟨by decide, by decide,
    c10_nonatomic defaultCfg c2fs "lib/game2" g2 [] c10cat1 [entryTheme2]
      entryBeta [entryAlpha] (.fileNotFound "lib/game2/beta.brstm")
      (by decide) (by decide)⟩

/-- Model of Python `str.lower()` (ASCII case folding, which is all the
scenario data uses). -/
def lowerStr (s : String) : String := String.mk (s.data.map Char.toLower)

/-- Accumulating scanner behind `pywords`. -/
def wordsAux : List Char → List Char → List String
  | [], acc => if acc.isEmpty then [] else [String.mk acc.reverse]
  | c :: cs, acc =>
    if c.isWhitespace then
      if acc.isEmpty then wordsAux cs []
      else String.mk acc.reverse :: wordsAux cs []
    else wordsAux cs (c :: acc)

/-- Model of Python `str.split()` with no argument: maximal runs of
non-whitespace characters, no empty words. -/
def pywords (s : String) : List String := wordsAux s.data []

/-- Python `max(Levenshtein.ratio(keyword, word) for word in words)`:
`none` models the `ValueError` that `max` raises on an empty sequence.
(The source builds the word `set`; duplicate words do not change the
maximum, so the word list is used directly.) -/
def maxRatio (kw : String) (words : List String) : Option ℚ :=
  (words.map (fun w => ratio kw w)).max?

/-- Per-keyword score of the ranked search: the keyword is lower-cased, the
two sub-ratios are taken over the song-title and game-title words, combined
as `max(subratio1, subratio2*0.8)`, and the combined value contributes only
when strictly above `0.7`. -/
def keywordScore (h1 h2 : List String) (kw : String) : Option ℚ := do
  let s1 ← maxRatio (lowerStr kw) h1
  let s2 ← maxRatio (lowerStr kw) h2
  let sub := max s1 (s2 * (8/10))
  pure (if sub > 7/10 then sub else 0)

/-- Score of one song in `MusicCat.search`: sum of the per-keyword
contributions divided by `num_keywords`; `none` models the
`ZeroDivisionError` of `ratio /= num_keywords` when the keyword list is
empty, and the `ValueError` of `max` on a song whose title has no words. -/
def songScore (keywords : List String) (song : Song) : Option ℚ := do
  let h1 := pywords (lowerStr song.title)
  let h2 := pywords (lowerStr song.game.title)
  let contribs ← keywords.mapM (keywordScore h1 h2)
  if keywords.length = 0 then none
  else pure (contribs.sum / (keywords.length : ℚ))

/-- Stable descending insertion used to model
`sorted(results, key=lambda s: s[1], reverse=True)`. -/
def insertDesc (p : Song × ℚ) : List (Song × ℚ) → List (Song × ℚ)
  | [] => [p]
  | q :: rest => if q.2 < p.2 then p :: q :: rest else q :: insertDesc p rest

/-- Stable descending sort by match ratio (equal ratios keep the encounter
order, as Python's stable `sorted` with `reverse=True` does). -/
def sortDesc (l : List (Song × ℚ)) : List (Song × ℚ) :=
  l.foldl (fun acc p => insertDesc p acc) []

/-- Embedding of `MusicCat.search` of `musiccat/__init__.py` (spec:
`rankedSearch`): score every catalog song (`self.songs.values()` in
insertion order), keep those whose score strictly exceeds `cutoff`, and
sort by descending score. -/
def search (songs : List Song) (keywords : List String) (cutoff : ℚ) :
    Option (List (Song × ℚ)) := do
  let scored ← songs.mapM
    (fun song => (songScore keywords song).map (fun r => (song, r)))
  pure (sortDesc (scored.filter (fun p => p.2 > cutoff)))

/-- Song fixture for the ZeroDivisionError scenario. -/
def c3song : Song :=
  { id := "intro", title := "Intro", path := "intro.brstm",
    types := ["intro"], game := gameA, fullpath := "lib/intro.brstm" }

/-- C3 (code evaluation): on a non-empty catalog, `search` with an empty
keyword list reaches `ratio /= num_keywords` with `num_keywords = 0` and
fails with a `ZeroDivisionError` (modelled as `none`); only on an empty
catalog does it return the empty result list. -/
theorem c3_zero_division :
    search [c3song] [] (3/10) = none ∧
    search [] [] (3/10) = some [] := by
  constructor
  · rfl
  · rfl

/-- The combined per-keyword sub-score as the spec words it: maximum
similarity of the lower-cased keyword against the words of the song title
(`subratio1`) and against the words of the game title (`subratio2`),
combined as `max(subratio1, subratio2 * 0.8)`. -/
def specSub (song : Song) (kw : String) : ℚ :=
  let s1 := (maxRatio (lowerStr kw) (pywords (lowerStr song.title))).getD 0
  let s2 := (maxRatio (lowerStr kw) (pywords (lowerStr song.game.title))).getD 0
  max s1 (s2 * (8/10))

/-- Per-keyword contribution as the code computes it: the sub-score counts
only when strictly above `0.7`. -/
def specContrib (song : Song) (kw : String) : ℚ :=
  if specSub song kw > 7/10 then specSub song kw else 0

/-- Aggregate score as the code computes it: sum of contributions divided
by the number of keywords. -/
def specScore (keywords : List String) (song : Song) : ℚ :=
  (keywords.map (specContrib song)).sum / (keywords.length : ℚ)

/-- Per-keyword contribution as the claim words it: a sub-score *below*
`0.7` contributes `0` (so a sub-score equal to `0.7` contributes). -/
def claimContrib (song : Song) (kw : String) : ℚ :=
  if specSub song kw < 7/10 then 0 else specSub song kw

/-- Aggregate score under the claim's wording of the noise floor. -/
def claimScore (keywords : List String) (song : Song) : ℚ :=
  (keywords.map (claimContrib song)).sum / (keywords.length : ℚ)

theorem mapM_option_eq_some_map {α β : Type} (f : α → Option β) (g : α → β) :
    ∀ l : List α, (∀ x ∈ l, f x = some (g x)) → l.mapM f = some (l.map g) := by
  intro l
  induction l with
  | nil => intro h; rfl
  | cons a as ih =>
    intro h
    rw [List.mapM_cons, h a (List.mem_cons_self _ _),
      ih (fun x hx => h x (List.mem_cons_of_mem _ hx))]
    rfl

theorem maxRatio_eq_getD (kw : String) (ws : List String) (h : ws ≠ []) :
    maxRatio kw ws = some ((maxRatio kw ws).getD 0) := by
  cases hm : maxRatio kw ws with
  | none =>
    exfalso
    have : ws.map (fun w => ratio kw w) = [] := List.max?_eq_none_iff.mp hm
    exact h (List.map_eq_nil_iff.mp this)
  | some v => rfl

theorem keywordScore_eq_spec (song : Song) (kw : String)
    (hw1 : pywords (lowerStr song.title) ≠ [])
    (hw2 : pywords (lowerStr song.game.title) ≠ []) :
    keywordScore (pywords (lowerStr song.title))
        (pywords (lowerStr song.game.title)) kw = some (specContrib song kw) := by
  unfold keywordScore specContrib specSub
  rw [maxRatio_eq_getD _ _ hw1, maxRatio_eq_getD _ _ hw2]
  rfl

theorem songScore_eq_spec (keywords : List String) (song : Song)
    (hk : keywords ≠ [])
    (hw1 : pywords (lowerStr song.title) ≠ [])
    (hw2 : pywords (lowerStr song.game.title) ≠ []) :
    songScore keywords song = some (specScore keywords song) := by
  unfold songScore
  dsimp only
  rw [mapM_option_eq_some_map _ (specContrib song) keywords
    (fun kw _ => keywordScore_eq_spec song kw hw1 hw2)]
  have hlen : ¬ keywords.length = 0 :=
    fun h0 => hk (List.length_eq_zero.mp h0)
  simp only [Option.bind_eq_bind, Option.some_bind, hlen, if_false]
  rfl

theorem mem_insertDesc (p q : Song × ℚ) :
    ∀ l, q ∈ insertDesc p l ↔ q = p ∨ q ∈ l := by
  intro l
  induction l with
  | nil => simp [insertDesc]
  | cons r rest ih =>
    by_cases h : r.2 < p.2
    · simp only [insertDesc, h, if_true]
      simp [List.mem_cons]
    · simp only [insertDesc, h, if_false]
      simp only [List.mem_cons, ih]
      tauto

theorem mem_sortDesc (q : Song × ℚ) (l : List (Song × ℚ)) :
    q ∈ sortDesc l ↔ q ∈ l := by
  have hgen : ∀ (m : List (Song × ℚ)) (acc : List (Song × ℚ)),
      q ∈ m.foldl (fun acc p => insertDesc p acc) acc ↔ q ∈ acc ∨ q ∈ m := by
    intro m
    induction m with
    | nil => intro acc; simp
    | cons p rest ih =>
      intro acc
      rw [List.foldl_cons, ih, mem_insertDesc]
      simp only [List.mem_cons]
      tauto
  unfold sortDesc
  rw [hgen l []]
  simp

/-- C4 (amended): for every non-empty keyword list (over songs whose titles
have at least one word, so that `max` does not fail), the ranked search
scores a song as `max(subratio1, subratio2*0.8)` per keyword with a
contribution of `0` whenever the sub-score is *at or below* `0.7` (only a
sub-score strictly above `0.7` contributes), aggregates by dividing the sum
of contributions by the number of keywords, and a song appears in the result
exactly when its aggregate score strictly exceeds the cutoff. -/
theorem c4_amended (songs : List Song) (keywords : List String) (cutoff : ℚ)
    (hk : keywords ≠ [])
    (ht : ∀ s ∈ songs,
      pywords (lowerStr s.title) ≠ [] ∧ pywords (lowerStr s.game.title) ≠ []) :
    ∃ res, search songs keywords cutoff = some res ∧
      (∀ s ∈ songs, ((s, specScore keywords s) ∈ res ↔
        specScore keywords s > cutoff)) ∧
      (∀ p ∈ res, p.1 ∈ songs ∧ p.2 = specScore keywords p.1 ∧ p.2 > cutoff) := by
  have hmap : songs.mapM
      (fun song => (songScore keywords song).map (fun r => (song, r))) =
      some (songs.map (fun s => (s, specScore keywords s))) :=
    mapM_option_eq_some_map _ _ songs (fun s hs => by
      rw [songScore_eq_spec keywords s hk (ht s hs).1 (ht s hs).2]
      rfl)
  refine ⟨sortDesc ((songs.map (fun s => (s, specScore keywords s))).filter
    (fun p => p.2 > cutoff)), ?_, ?_, ?_⟩
  · unfold search
    rw [hmap]
    rfl
  · intro s hs
    rw [mem_sortDesc, List.mem_filter]
    constructor
    · rintro ⟨hmem, hdec⟩
      simpa using hdec
    · intro hgt
      exact ⟨List.mem_map.mpr ⟨s, hs, rfl⟩, by simpa using hgt⟩
  · intro p hp
    rw [mem_sortDesc, List.mem_filter] at hp
    obtain ⟨hmem, hdec⟩ := hp
    obtain ⟨s0, hs0, heq⟩ := List.mem_map.mp hmem
    subst heq
    exact ⟨hs0, rfl, by simpa using hdec⟩

/-- Witness for C4 (amended) at a one-song catalog and the keyword
`intro`. -/
theorem c4_amended_witness :
    (["intro"] : List String) ≠ [] ∧
    (∀ s ∈ [c3song],
      pywords (lowerStr s.title) ≠ [] ∧ pywords (lowerStr s.game.title) ≠ []) ∧
    (∃ res, search [c3song] ["intro"] (3/10) = some res ∧
      (∀ s ∈ [c3song], ((s, specScore ["intro"] s) ∈ res ↔
        specScore ["intro"] s > 3/10)) ∧
      (∀ p ∈ res, p.1 ∈ [c3song] ∧ p.2 = specScore ["intro"] p.1 ∧
        p.2 > 3/10)) :=
  ⟨by decide, by decide,
    c4_amended [c3song] ["intro"] (3/10) (by decide) (by decide)⟩

/-- Game fixture with a title sharing no letters with the boundary
keyword. -/
def gameZ : Game :=
  { id := "gamez", title := "zzzz", platform := "gba", year := 2000,
    series := none, path := none }

/-- Song fixture whose title word has similarity exactly `0.7` to the
keyword `aaaaaaabbb`. -/
def c4song : Song :=
  { id := "c4", title := "aaaaaaaccc", path := "c4.brstm",
    types := [], game := gameZ, fullpath := "lib/c4.brstm" }

/-- C4 (counterexample): for the keyword `aaaaaaabbb` the song `c4song` has
its only sub-score exactly `0.7`; under the claim's wording ("below 0.7
contributes 0") the aggregate is `0.7 > 0.3` and the song should appear,
but the code's strict comparison drops the contribution and the song is
not in the result. -/
theorem c4_counterexample :
    specSub c4song "aaaaaaabbb" = 7/10 ∧
    claimScore ["aaaaaaabbb"] c4song > 3/10 ∧
    search [c4song] ["aaaaaaabbb"] (3/10) = some [] := by
  have hl1 : levenshtein levCost "aaaaaaabbb".data "aaaaaaaccc".data = 6 := by
    decide
  have hl2 : levenshtein levCost "aaaaaaabbb".data "zzzz".data = 14 := by
    decide
  have hr1 : ratio "aaaaaaabbb" "aaaaaaaccc" = 7/10 := by
    norm_num [ratio, ratioL, hl1]
  have hr2 : ratio "aaaaaaabbb" "zzzz" = 0 := by
    norm_num [ratio, ratioL, hl2]
  have hw1 : pywords (lowerStr c4song.title) = ["aaaaaaaccc"] := by decide
  have hw2 : pywords (lowerStr c4song.game.title) = ["zzzz"] := by decide
  have hlow : lowerStr "aaaaaaabbb" = "aaaaaaabbb" := by decide
  have hsub : specSub c4song "aaaaaaabbb" = 7/10 := by
    unfold specSub
    rw [hw1, hw2, hlow]
    unfold maxRatio
    simp only [List.map_cons, List.map_nil, hr1, hr2]
    rw [List.max?_cons']
    rw [List.max?_cons']
    simp only [List.foldl_nil, Option.getD_some]
    norm_num
  refine ⟨hsub, ?_, ?_⟩
  · unfold claimScore claimContrib
    rw [List.map_cons, List.map_nil, hsub]
    norm_num
  · unfold search
    have hks : keywordScore ["aaaaaaaccc"] ["zzzz"] "aaaaaaabbb" = some 0 := by
      unfold keywordScore maxRatio
      rw [hlow]
      simp only [List.map_cons, List.map_nil, hr1, hr2]
      rw [List.max?_cons', List.max?_cons']
      simp only [List.foldl_nil]
      norm_num
    have hscore : songScore ["aaaaaaabbb"] c4song = some 0 := by
      unfold songScore
      dsimp only
      rw [hw1, hw2, List.mapM_cons, hks]
      simp only [List.mapM_nil]
      norm_num
    rw [List.mapM_cons, hscore]
    simp only [List.mapM_nil, Option.map_some]
    simp only [Option.bind_eq_bind, Option.some_bind]
    norm_num [List.filter, sortDesc]
